import Mathlib

/-!
Verification of the m2o_backend multi-tenant SaaS backend.

The relational state is embedded shallowly: each database table is a
`List` of row structures, Django ORM calls become explicit list
operations, and the operations of `accounts` (signals, services,
viewset actions) and `integration` (the `BusinessPlatformManager`)
become Lean functions over those lists.  Machine time is modelled as
`Int` seconds.  Fallible operations return `Except Err` or carry an
explicit error field, mirroring the structured errors (ValidationError,
NotFoundError, ...) and the unhandled Python exceptions (KeyError) of
the source.
-/

namespace M2O

/-- Error taxonomy of the backend: DRF / Django structured errors plus
the unhandled Python exceptions that can escape the manager code. -/
inductive Err where
  | validationError
  | notFoundError
  | integrityError
  | keyError
  | multipleObjectsError
  deriving DecidableEq, Repr

/-- Membership roles, from `OrganizationMembership.Role` in
`accounts/models.py` (TextChoices OWNER / ADMIN / MEMBER). -/
inductive Role where
  | OWNER
  | ADMIN
  | MEMBER
  deriving DecidableEq, Repr

/-- A row of the `OrganizationMembership` table
(`accounts/models.py`): user FK, organization FK, role
(default MEMBER), optional inviting user (SET_NULL FK).
`unique_together = [[user, organization]]` holds as a database
constraint. -/
structure Membership where
  user : Nat
  organization : Nat
  role : Role
  invitedBy : Option Nat
  deriving DecidableEq, Repr

/-- A row of the `Organization` table (`accounts/models.py`),
restricted to the fields the verified operations read: primary key and
owner FK. -/
structure OrganizationRow where
  id : Nat
  owner : Nat
  deriving DecidableEq, Repr

/-- The `post_save` receiver `create_owner_membership` in
`accounts/signals.py`: on creation of an Organization it runs
`OrganizationMembership.objects.get_or_create(user=owner,
organization=instance, defaults=\x7brole: OWNER, invited_by: None\x7d)`.
`get_or_create` keys on (user, organization): if such a row exists the
call is a no-op, otherwise it inserts a row with the defaults. -/
def create_owner_membership (ms : List Membership) (owner org : Nat) :
    List Membership :=
  if ms.any (fun m => m.user == owner && m.organization == org) then ms
  else ms ++ [⟨owner, org, Role.OWNER, none⟩]

/-- `OrganizationMembership.clean` in `accounts/models.py`: raises
ValidationError when the membership's user is the organization's owner
and the role is not OWNER.  `org` is the resolved
`self.organization` row of the membership. -/
def membership_clean (org : OrganizationRow) (m : Membership) : Except Err Unit :=
  if org.owner == m.user && !(m.role == Role.OWNER) then .error .validationError
  else .ok ()

/-- `OrganizationViewSet.add_member` in `accounts/viewsets.py`: the
`OrganizationMembershipSerializer` is validated
(`is_valid(raise_exception=True)`) and then saved with
`organization=organization, invited_by=request.user`.  The serializer
carries the UniqueTogetherValidator derived from the model's
`unique_together = [[user, organization]]`, so validation fails with a
ValidationError when a membership for the (user, organization) pair
already exists; otherwise the new row is inserted.  (DRF model
serializers do not invoke `Model.clean`, so the only rejection on this
path is the uniqueness one.) -/
def add_member (ms : List Membership) (org : OrganizationRow)
    (user : Nat) (role : Role) (invitedBy : Nat) : Except Err (List Membership) :=
  if ms.any (fun m => m.user == user && m.organization == org.id) then
    .error .validationError
  else
    .ok (ms ++ [⟨user, org.id, role, some invitedBy⟩])

/-- `OrganizationViewSet.remove_member` in `accounts/viewsets.py`:
returns 400 (ValidationError) when the target user id is the
organization owner's id, deletes the matching membership rows
otherwise, and returns 404 (NotFoundError) when the delete removed
nothing. -/
def remove_member (ms : List Membership) (org : OrganizationRow) (userId : Nat) :
    Except Err (List Membership) :=
  if userId == org.owner then .error .validationError
  else
    let deleted := (ms.filter (fun m => m.organization == org.id && m.user == userId)).length
    if deleted == 0 then .error .notFoundError
    else .ok (ms.filter (fun m => !(m.organization == org.id && m.user == userId)))

/-- The owner-always-OWNER invariant over the joint state: every
membership row whose user is the owner of its organization carries the
OWNER role. -/
def ownerRoleInvariant (orgs : List OrganizationRow) (ms : List Membership) : Prop :=
  ∀ m ∈ ms, ∀ o ∈ orgs, o.id = m.organization → o.owner = m.user →
    m.role = Role.OWNER

/-- A row of the `CustomUser` table (`accounts/models.py`): primary
key, unique email, and the `is_verified` / `is_active` flags (both
default False on creation). -/
structure UserRow where
  id : Nat
  email : String
  is_verified : Bool
  is_active : Bool
  deriving DecidableEq, Repr

/-- A row of the `EmailVerificationToken` table
(`accounts/models.py`): user FK, unique token string, creation time
(seconds). -/
structure VerificationToken where
  user : Nat
  token : String
  created_at : Int
  deriving DecidableEq, Repr

/-- The part of the database state the email-verification flow
touches: the user table and the verification-token table. -/
structure AccountsState where
  users : List UserRow
  tokens : List VerificationToken
  deriving DecidableEq, Repr

/-- `EmailVerificationToken.is_expired` in `accounts/models.py`:
`timezone.now() > self.created_at + timedelta(hours=24)`, with 24
hours = 86400 seconds. -/
def is_expired (now : Int) (t : VerificationToken) : Bool :=
  decide (now > t.created_at + 86400)

/-- Result of `EmailService.verify_token`: the returned (user,
message) pair together with the database state after the call. -/
structure VerifyResult where
  user : Option Nat
  message : String
  state : AccountsState
  deriving DecidableEq, Repr

/-- `EmailService.verify_token` in `accounts/services.py`: look the
token up (token strings are unique); missing token returns (None,
"Invalid token"); expired token returns (None, "Token has expired")
without deleting the row; an already verified user returns success
without mutation; otherwise the user's `is_verified` and `is_active`
flags are set, the user saved, and the token row deleted.  The inner
`none` branch of the user lookup is unreachable under foreign-key
integrity (every token row references an existing user). -/
def verify_token (now : Int) (st : AccountsState) (tok : String) : VerifyResult :=
  match st.tokens.find? (fun t => t.token == tok) with
  | none => ⟨none, "Invalid token", st⟩
  | some v =>
    if is_expired now v then ⟨none, "Token has expired", st⟩
    else
      match st.users.find? (fun u => u.id == v.user) with
      | none => ⟨none, "Invalid token", st⟩
      | some u =>
        if u.is_verified then ⟨some u.id, "Email already verified", st⟩
        else
          ⟨some u.id, "Email verified successfully",
           ⟨st.users.map (fun w =>
              if w.id == u.id then { w with is_verified := true, is_active := true }
              else w),
            st.tokens.filter (fun t => !(t.token == tok))⟩⟩

/-- Result of `AuthService.register_user`: the user table after the
call, the created user (None on failure) and the error message (None
on success). -/
structure RegisterResult where
  users : List UserRow
  user : Option Nat
  error : Option String
  deriving DecidableEq, Repr

/-- `AuthService.register_user` in `accounts/services.py`: rejects an
already registered email; otherwise creates the user (inactive,
unverified, fresh id `newId`) and sends the verification mail, whose
outcome is the `mailOk` parameter; on mail failure the created user is
deleted (`user.delete()`) and an error returned. -/
def register_user (users : List UserRow) (email : String) (newId : Nat)
    (mailOk : Bool) : RegisterResult :=
  if users.any (fun u => u.email == email) then
    ⟨users, none, some "Email already registered"⟩
  else
    let created : UserRow := ⟨newId, email, false, false⟩
    if mailOk then ⟨users ++ [created], some newId, none⟩
    else
      ⟨(users ++ [created]).filter (fun u => !(u.id == newId)), none,
       some "Failed to send verification email"⟩

/-- `ResendVerificationView.post` in `accounts/views.py`, response
part (HTTP status, message body): an existing verified user gets
"Email already verified", an existing unverified user gets
"Verification email sent" (after a successful send), and an unknown
email gets "If email exists, verification link will be sent" — all
with status 200. -/
def resend_post (users : List UserRow) (email : String) : Nat × String :=
  match users.find? (fun u => u.email == email) with
  | some u =>
      if u.is_verified then (200, "Email already verified")
      else (200, "Verification email sent")
  | none => (200, "If email exists, verification link will be sent")

/-- An OAuth token response dictionary as read by
`BusinessPlatformManager` (`integration/managers.py`): `access_token`
read with mandatory indexing (a missing key raises KeyError),
`refresh_token` and `expires_in` read with `.get` (missing keys give
None). -/
structure TokenResponse where
  access_token : Option String
  refresh_token : Option String
  expires_in : Option Int
  deriving DecidableEq, Repr

/-- A row of the `Platform` table (`integration/models.py`),
restricted to the fields the connection lifecycle reads: primary key
and the optional parent platform (self FK). -/
structure PlatformRow where
  id : Nat
  parent : Option Nat
  deriving DecidableEq, Repr

/-- A row of the `BusinessPlatform` table (`integration/models.py`):
primary key, business FK (NOT NULL), platform FK, token fields,
optional expiry, `platform_type`, and the `is_active` (default True)
and `reconnection` (default False) flags.  The external-entity fields
not read by the verified operations are omitted. -/
structure BusinessPlatform where
  id : Nat
  business : Nat
  platform : Nat
  access_token : String
  refresh_token : Option String
  expire_at : Option Int
  platform_type : String
  is_active : Bool
  reconnection : Bool
  deriving DecidableEq, Repr

/-- The expiry computation shared by `create_business_platform` and
`update_business_platform`: `if expires_in:` is Python truthiness, so
both a missing `expires_in` (None) and a zero value give expire_at =
None; any nonzero value gives now + expires_in seconds. -/
def computeExpireAt (now : Int) (e : Option Int) : Option Int :=
  match e with
  | some n => if n ≠ 0 then some (now + n) else none
  | none => none

/-- `BusinessPlatformManager.create_business_platform` in
`integration/managers.py`.  `response_data['access_token']` raises
KeyError when the key is absent — before any database access, so no
row is created or updated in that case.  With a business present,
`update_or_create(business=..., platform=..., defaults=...)` updates
the unique matching row's token fields in place, creates a fresh row
(id `freshId`, `is_active` True, `reconnection` False by default) when
none matches, and raises MultipleObjectsReturned when several match.
The `user_uuid` memory-tracking block after creation references an
undefined name, but the NameError is swallowed by its
`except Exception: pass`, so it has no effect on the state.  With a
falsy business, `self.create(...)` omits the NOT NULL business FK and
the insert fails with IntegrityError. -/
def create_business_platform (rows : List BusinessPlatform) (now : Int)
    (business : Option Nat) (platform : Nat) (response_data : TokenResponse)
    (platform_type : String) (freshId : Nat) : Except Err (List BusinessPlatform) :=
  match response_data.access_token with
  | none => .error .keyError
  | some tok =>
    let expire_at := computeExpireAt now response_data.expires_in
    match business with
    | some b =>
      match rows.filter (fun r => r.business == b && r.platform == platform) with
      | [] =>
          .ok (rows ++ [⟨freshId, b, platform, tok, response_data.refresh_token,
                         expire_at, platform_type, true, false⟩])
      | [r0] =>
          .ok (rows.map (fun r =>
            if r.id == r0.id then
              { r with access_token := tok,
                       refresh_token := response_data.refresh_token,
                       expire_at := expire_at,
                       platform_type := platform_type }
            else r))
      | _ :: _ :: _ => .error .multipleObjectsError
    | none => .error .integrityError

/-- The parent of a platform: `business_platform.platform.parent`
resolved against the platform table. -/
def platformParent (ps : List PlatformRow) (pid : Nat) : Option Nat :=
  (ps.find? (fun p => p.id == pid)).bind (fun p => p.parent)

/-- `BusinessPlatformManager.deactivate_platform` in
`integration/managers.py`: a falsy argument returns immediately;
otherwise the given connection gets `reconnection := True` and
`is_active := False` and is saved (Django writes the instance's
fields to the row with its primary key), and then, when the
connection's platform has a parent, every still-active row of the
same business under that parent platform is bulk-updated with the
same two flags.  No further ancestor level is touched. -/
def deactivate_platform (ps : List PlatformRow) (rows : List BusinessPlatform)
    (bp : Option BusinessPlatform) : List BusinessPlatform :=
  match bp with
  | none => rows
  | some bp =>
    let rows1 := rows.map (fun r =>
      if r.id == bp.id then { bp with reconnection := true, is_active := false }
      else r)
    match platformParent ps bp.platform with
    | some pp =>
        rows1.map (fun r =>
          if r.business == bp.business && r.platform == pp && r.is_active then
            { r with reconnection := true, is_active := false }
          else r)
    | none => rows1

/-- Per-row specification of deactivation, following the claim: the
deactivated connection itself gets exactly the two flags set; when a
parent platform exists, the active rows of the same business under
the parent get exactly the two flags set; every other row is
unchanged. -/
def deactivateSpecPerRow (bp : BusinessPlatform) (parent : Option Nat)
    (r : BusinessPlatform) : BusinessPlatform :=
  if r.id = bp.id then { bp with reconnection := true, is_active := false }
  else
    match parent with
    | some pp =>
        if r.business = bp.business ∧ r.platform = pp ∧ r.is_active = true then
          { r with reconnection := true, is_active := false }
        else r
    | none => r

/-- C1. For every Organization creation with owner `owner`, after the
post-creation side effect `create_owner_membership` exactly one
membership row exists for (owner, org) and it has role OWNER and
invited_by null; re-running the side effect for the same pair is a
no-op.  The hypothesis states that `org` is the id of the freshly
inserted organization, so no membership row references it yet. -/
theorem owner_membership_exactly_one (ms : List Membership) (owner org : Nat)
    (hfresh : ∀ m ∈ ms, m.organization ≠ org) :
    (create_owner_membership ms owner org).filter
        (fun m => m.user == owner && m.organization == org)
      = [⟨owner, org, Role.OWNER, none⟩]
    ∧ create_owner_membership (create_owner_membership ms owner org) owner org
      = create_owner_membership ms owner org := by
  have hany : ms.any (fun m => m.user == owner && m.organization == org) = false := by
    simp only [List.any_eq_false, Bool.and_eq_true, beq_iff_eq, not_and]
    intro m hm _
    simpa using hfresh m hm
  have hstep : create_owner_membership ms owner org
      = ms ++ [⟨owner, org, Role.OWNER, none⟩] := by
    simp [create_owner_membership, hany]
  constructor
  · rw [hstep, List.filter_append]
    have hnil : ms.filter (fun m => m.user == owner && m.organization == org) = [] := by
      simp only [List.filter_eq_nil_iff, Bool.and_eq_true, beq_iff_eq, not_and]
      intro m hm _
      simpa using hfresh m hm
    simp [hnil]
  · have hmem : (⟨owner, org, Role.OWNER, none⟩ : Membership)
        ∈ create_owner_membership ms owner org := by
      rw [hstep]; simp
    unfold create_owner_membership
    rw [if_pos]
    rw [List.any_eq_true]
    exact ⟨_, hmem, by simp⟩

/-- Closed instance of `owner_membership_exactly_one` at a concrete
state: one unrelated membership, owner 5, fresh organization 9. -/
theorem owner_membership_exactly_one_check :
    (create_owner_membership [⟨1, 2, Role.MEMBER, some 3⟩] 5 9).filter
        (fun m => m.user == 5 && m.organization == 9)
      = [⟨5, 9, Role.OWNER, none⟩]
    ∧ create_owner_membership
        (create_owner_membership [⟨1, 2, Role.MEMBER, some 3⟩] 5 9) 5 9
      = create_owner_membership [⟨1, 2, Role.MEMBER, some 3⟩] 5 9 :=
  owner_membership_exactly_one [⟨1, 2, Role.MEMBER, some 3⟩] 5 9
    (by intro m hm; simp at hm; simp [hm])

/-- C2. Every membership whose user is its organization's owner has
role OWNER, and attempts to create such a membership with another role
fail with ValidationError leaving the table unchanged.  Conjuncts:
(1) `OrganizationMembership.clean` raises ValidationError exactly when
the user is the owner and the role is not OWNER; (2) `add_member` for
the organization's owner fails with ValidationError whenever the
owner's membership already exists (which organization creation
guarantees, claim C1); (3, 4, 5) the owner-role invariant is preserved
by `add_member`, `remove_member` and organization creation with its
membership side effect, so it holds in every reachable state. -/
theorem owner_role_protected :
    (∀ (org : OrganizationRow) (m : Membership),
        membership_clean org m = .error .validationError
          ↔ (org.owner = m.user ∧ m.role ≠ Role.OWNER))
  ∧ (∀ (ms : List Membership) (org : OrganizationRow) (role : Role) (inv : Nat),
        (∃ m ∈ ms, m.user = org.owner ∧ m.organization = org.id) →
        add_member ms org org.owner role inv = .error .validationError)
  ∧ (∀ (orgs : List OrganizationRow) (ms ms2 : List Membership)
        (org : OrganizationRow) (user : Nat) (role : Role) (inv : Nat),
        (∀ o ∈ orgs, o.id = org.id → o = org) →
        (∃ m ∈ ms, m.user = org.owner ∧ m.organization = org.id) →
        ownerRoleInvariant orgs ms →
        add_member ms org user role inv = .ok ms2 →
        ownerRoleInvariant orgs ms2)
  ∧ (∀ (orgs : List OrganizationRow) (ms ms2 : List Membership)
        (org : OrganizationRow) (userId : Nat),
        ownerRoleInvariant orgs ms →
        remove_member ms org userId = .ok ms2 →
        ownerRoleInvariant orgs ms2)
  ∧ (∀ (orgs : List OrganizationRow) (ms : List Membership)
        (org : OrganizationRow),
        (∀ m ∈ ms, m.organization ≠ org.id) →
        ownerRoleInvariant orgs ms →
        ownerRoleInvariant (orgs ++ [org])
          (create_owner_membership ms org.owner org.id)) := by
  refine ⟨?_, ?_, ?_, ?_, ?_⟩
  · intro org m
    unfold membership_clean
    by_cases h : org.owner == m.user && !(m.role == Role.OWNER)
    · simp only [h, if_true]
      simp only [Bool.and_eq_true, beq_iff_eq, Bool.not_eq_true', beq_eq_false_iff_ne] at h
      simp [h]
    · simp only [h, if_false]
      simp only [Bool.and_eq_true, beq_iff_eq, Bool.not_eq_true', beq_eq_false_iff_ne,
        not_and] at h
      constructor
      · intro hcontra; cases hcontra
      · intro ⟨h1, h2⟩; exact absurd (h h1) (by simpa using h2)
  · intro ms org role inv ⟨m, hm, hu, ho⟩
    unfold add_member
    rw [if_pos]
    rw [List.any_eq_true]
    exact ⟨m, hm, by simp [hu, ho]⟩
  · intro orgs ms ms2 org user role inv huniq ⟨m0, hm0, hu0, ho0⟩ hinv hok
    unfold add_member at hok
    by_cases hany : ms.any (fun m => m.user == user && m.organization == org.id)
    · simp [hany] at hok
    · simp only [hany, Bool.false_eq_true, if_false, Except.ok.injEq] at hok
      subst hok
      intro m hm o ho hid howner
      rcases List.mem_append.mp hm with hold | hnew
      · exact hinv m hold o ho hid howner
      · simp only [List.mem_singleton] at hnew
        subst hnew
        simp only at hid howner
        have : o = org := huniq o ho hid
        subst this
        exfalso
        apply hany
        rw [List.any_eq_true]
        exact ⟨m0, hm0, by simp [hu0, ho0, howner]⟩
  · intro orgs ms ms2 org userId hinv hok
    unfold remove_member at hok
    by_cases h1 : userId == org.owner
    · simp [h1] at hok
    · simp only [h1, Bool.false_eq_true, if_false] at hok
      by_cases h2 : (ms.filter (fun m => m.organization == org.id && m.user == userId)).length == 0
      · simp [h2] at hok
      · simp only [h2, Bool.false_eq_true, if_false, Except.ok.injEq] at hok
        subst hok
        intro m hm
        exact hinv m (List.mem_of_mem_filter hm)
  · intro orgs ms org hfresh hinv
    have hany : ms.any (fun m => m.user == org.owner && m.organization == org.id)
        = false := by
      rw [List.any_eq_false]
      intro m hm
      simp only [Bool.and_eq_true, beq_iff_eq, not_and]
      intro _
      exact fun hc => hfresh m hm hc
    unfold create_owner_membership
    rw [hany]
    simp only [Bool.false_eq_true, if_false]
    intro m hm o ho hid howner
    rcases List.mem_append.mp hm with hold | hnew
    · rcases List.mem_append.mp ho with ho1 | ho2
      · exact hinv m hold o ho1 hid howner
      · simp only [List.mem_singleton] at ho2
        subst ho2
        exact absurd hid.symm (hfresh m hold)
    · simp only [List.mem_singleton] at hnew
      subst hnew
      rfl

/-- Closed instance of `owner_role_protected`: the clean hook rejects
the owner (user 1) of organization 10 with role ADMIN, and
`add_member` for that owner fails with ValidationError given the
signal-created OWNER membership. -/
theorem owner_role_protected_check :
    membership_clean ⟨10, 1⟩ ⟨1, 10, Role.ADMIN, none⟩ = .error .validationError
    ∧ add_member [⟨1, 10, Role.OWNER, none⟩] ⟨10, 1⟩ 1 Role.ADMIN 2
        = .error .validationError :=
  ⟨(owner_role_protected.1 ⟨10, 1⟩ ⟨1, 10, Role.ADMIN, none⟩).mpr
     ⟨rfl, by decide⟩,
   owner_role_protected.2.1 [⟨1, 10, Role.OWNER, none⟩] ⟨10, 1⟩ Role.ADMIN 2
     ⟨⟨1, 10, Role.OWNER, none⟩, by simp, rfl, rfl⟩⟩

/-- C7. `remove_member` fails with ValidationError when the target
user id is the organization owner's id (the check precedes everything
else, so it applies regardless of the caller); fails with
NotFoundError when no membership row matches (the delete removed
nothing, so the table is unchanged); and otherwise deletes exactly the
matching membership row: when the (user, organization) pair matches a
single row — which the unique_together constraint guarantees — the
result drops that row and nothing else, shrinking the table by one. -/
theorem remove_member_cases :
    (∀ (ms : List Membership) (org : OrganizationRow) (userId : Nat),
        userId = org.owner →
        remove_member ms org userId = .error .validationError)
  ∧ (∀ (ms : List Membership) (org : OrganizationRow) (userId : Nat),
        ms.filter (fun m => m.organization == org.id && m.user == userId) = [] →
        userId ≠ org.owner →
        remove_member ms org userId = .error .notFoundError)
  ∧ (∀ (ms : List Membership) (org : OrganizationRow) (userId : Nat)
        (m0 : Membership),
        ms.filter (fun m => m.organization == org.id && m.user == userId) = [m0] →
        userId ≠ org.owner →
        remove_member ms org userId
          = .ok (ms.filter (fun m => !(m.organization == org.id && m.user == userId)))
        ∧ (ms.filter (fun m => !(m.organization == org.id && m.user == userId))).length + 1
            = ms.length) := by
  refine ⟨?_, ?_, ?_⟩
  · intro ms org userId h
    unfold remove_member
    rw [if_pos (by simp [h])]
  · intro ms org userId hnil hne
    unfold remove_member
    rw [if_neg (by simp [hne])]
    simp [hnil]
  · intro ms org userId m0 hone hne
    constructor
    · unfold remove_member
      rw [if_neg (by simp [hne])]
      simp [hone]
    · have := List.length_eq_length_filter_add
        (l := ms) (fun m => m.organization == org.id && m.user == userId)
      rw [hone] at this
      simp only [List.length_singleton] at this
      omega

/-- Closed instance of `remove_member_cases` at concrete states:
removing the owner (user 1) of organization 10 fails with
ValidationError; removing an absent user 7 fails with NotFoundError;
removing member 2 deletes exactly its row. -/
theorem remove_member_cases_check :
    remove_member [⟨1, 10, Role.OWNER, none⟩] ⟨10, 1⟩ 1 = .error .validationError
    ∧ remove_member [⟨1, 10, Role.OWNER, none⟩] ⟨10, 1⟩ 7 = .error .notFoundError
    ∧ remove_member [⟨1, 10, Role.OWNER, none⟩, ⟨2, 10, Role.MEMBER, some 1⟩]
        ⟨10, 1⟩ 2 = .ok [⟨1, 10, Role.OWNER, none⟩] :=
  ⟨remove_member_cases.1 [⟨1, 10, Role.OWNER, none⟩] ⟨10, 1⟩ 1 rfl,
   remove_member_cases.2.1 [⟨1, 10, Role.OWNER, none⟩] ⟨10, 1⟩ 7 (by decide)
     (by decide),
   by
     have h := remove_member_cases.2.2
       [⟨1, 10, Role.OWNER, none⟩, ⟨2, 10, Role.MEMBER, some 1⟩] ⟨10, 1⟩ 2
       ⟨2, 10, Role.MEMBER, some 1⟩ (by decide) (by decide)
     exact h.1.trans (by rfl)⟩

/-- C5 (counterexample). The claim as stated fails for a token whose
user is already verified at the first redemption: with user 1 verified
and a live token "t", the first call returns success without deleting
the row, so the second call also succeeds ("Email already verified")
instead of failing with NotFoundError ("Invalid token"). -/
theorem verify_twice_claim_false :
    (verify_token 10 ⟨[⟨1, "a@x.com", true, true⟩], [⟨1, "t", 0⟩]⟩ "t").user
      = some 1
    ∧ (verify_token 10
        (verify_token 10 ⟨[⟨1, "a@x.com", true, true⟩], [⟨1, "t", 0⟩]⟩ "t").state
        "t").user = some 1
    ∧ (verify_token 10
        (verify_token 10 ⟨[⟨1, "a@x.com", true, true⟩], [⟨1, "t", 0⟩]⟩ "t").state
        "t").message ≠ "Invalid token" :=
  ⟨rfl, rfl, by decide⟩

/-- C5 (amended). For every verification token redeemed twice within
its validity window, provided the token's user is not yet verified at
the first call: the first call succeeds, sets the user's verified and
active flags, and deletes the token's row, and the second call fails
with NotFoundError ("Invalid token"). -/
theorem verify_twice (now1 now2 : Int) (st : AccountsState) (tok : String)
    (v : VerificationToken) (u : UserRow)
    (hfind : st.tokens.find? (fun t => t.token == tok) = some v)
    (hnexp : ¬ now1 > v.created_at + 86400)
    (hufind : st.users.find? (fun w => w.id == v.user) = some u)
    (hunv : u.is_verified = false) :
    (verify_token now1 st tok).user = some u.id
    ∧ (verify_token now1 st tok).message = "Email verified successfully"
    ∧ (∀ w ∈ (verify_token now1 st tok).state.users,
         w.id = u.id → w.is_verified = true ∧ w.is_active = true)
    ∧ (∀ t ∈ (verify_token now1 st tok).state.tokens, t.token ≠ tok)
    ∧ verify_token now2 (verify_token now1 st tok).state tok
        = ⟨none, "Invalid token", (verify_token now1 st tok).state⟩ := by
  have hexp : is_expired now1 v = false := by
    simp [is_expired, hnexp]
  have hstep : verify_token now1 st tok
      = ⟨some u.id, "Email verified successfully",
         ⟨st.users.map (fun w =>
            if w.id == u.id then { w with is_verified := true, is_active := true }
            else w),
          st.tokens.filter (fun t => !(t.token == tok))⟩⟩ := by
    unfold verify_token
    rw [hfind]
    simp only [hexp, Bool.false_eq_true, if_false]
    rw [hufind]
    simp [hunv]
  refine ⟨by rw [hstep], by rw [hstep], ?_, ?_, ?_⟩
  · rw [hstep]
    intro w hw hid
    simp only [List.mem_map] at hw
    obtain ⟨w0, _, hw0⟩ := hw
    by_cases hcase : w0.id == u.id
    · rw [if_pos hcase] at hw0
      rw [← hw0]
      exact ⟨rfl, rfl⟩
    · rw [if_neg hcase] at hw0
      subst hw0
      exact absurd hid (by simpa using hcase)
  · rw [hstep]
    intro t ht
    have := List.of_mem_filter ht
    simpa using this
  · rw [hstep]
    unfold verify_token
    have hnone : (st.tokens.filter (fun t => !(t.token == tok))).find?
        (fun t => t.token == tok) = none := by
      rw [List.find?_eq_none]
      intro t ht
      have := List.of_mem_filter ht
      simpa using this
    rw [hnone]

/-- Closed instance of `verify_twice`: user 1 unverified, token "t"
created at time 0, first redemption at time 10, second at time 20. -/
theorem verify_twice_check :
    (verify_token 10 ⟨[⟨1, "a@x.com", false, false⟩], [⟨1, "t", 0⟩]⟩ "t").user
      = some 1
    ∧ (verify_token 10
        ⟨[⟨1, "a@x.com", false, false⟩], [⟨1, "t", 0⟩]⟩ "t").message
      = "Email verified successfully"
    ∧ (∀ w ∈ (verify_token 10
          ⟨[⟨1, "a@x.com", false, false⟩], [⟨1, "t", 0⟩]⟩ "t").state.users,
         w.id = 1 → w.is_verified = true ∧ w.is_active = true)
    ∧ (∀ t ∈ (verify_token 10
          ⟨[⟨1, "a@x.com", false, false⟩], [⟨1, "t", 0⟩]⟩ "t").state.tokens,
         t.token ≠ "t")
    ∧ verify_token 20
        (verify_token 10 ⟨[⟨1, "a@x.com", false, false⟩], [⟨1, "t", 0⟩]⟩ "t").state
        "t"
      = ⟨none, "Invalid token",
         (verify_token 10
           ⟨[⟨1, "a@x.com", false, false⟩], [⟨1, "t", 0⟩]⟩ "t").state⟩ := by
  have h := verify_twice 10 20 ⟨[⟨1, "a@x.com", false, false⟩], [⟨1, "t", 0⟩]⟩
    "t" ⟨1, "t", 0⟩ ⟨1, "a@x.com", false, false⟩ rfl (by decide) rfl rfl
  exact h

/-- C6. A verification token created at time `c` is not expired at
`c` + 23h59m (86340 s) and the redemption succeeds; it is expired at
`c` + 24h00m01s (86401 s) and redemption fails with ExpiredError
("Token has expired") leaving the state — token row included —
unchanged; and expiry holds exactly when now > `c` + 24h (86400 s). -/
theorem token_expiry_boundary (st : AccountsState) (tok : String)
    (u : Nat) (c : Int) (uRow : UserRow)
    (hfind : st.tokens.find? (fun t => t.token == tok) = some ⟨u, tok, c⟩)
    (hufind : st.users.find? (fun w => w.id == u) = some uRow) :
    is_expired (c + 86340) ⟨u, tok, c⟩ = false
    ∧ is_expired (c + 86401) ⟨u, tok, c⟩ = true
    ∧ (∀ now : Int, is_expired now ⟨u, tok, c⟩ = true ↔ now > c + 86400)
    ∧ (verify_token (c + 86340) st tok).user = some uRow.id
    ∧ verify_token (c + 86401) st tok = ⟨none, "Token has expired", st⟩ := by
  refine ⟨by simp [is_expired], by simp [is_expired],
    fun now => by simp [is_expired], ?_, ?_⟩
  · unfold verify_token
    rw [hfind]
    have hexp : is_expired (c + 86340) ⟨u, tok, c⟩ = false := by
      simp [is_expired]
    simp only [hexp, Bool.false_eq_true, if_false]
    rw [hufind]
    by_cases hv : uRow.is_verified
    · simp [hv]
    · simp [hv]
  · unfold verify_token
    rw [hfind]
    have hexp : is_expired (c + 86401) ⟨u, tok, c⟩ = true := by
      simp [is_expired]
    simp [hexp]

/-- Closed instance of `token_expiry_boundary`: token "t" created at
time 0 for user 1, checked at times 86340 and 86401. -/
theorem token_expiry_boundary_check :
    is_expired 86340 ⟨1, "t", 0⟩ = false
    ∧ is_expired 86401 ⟨1, "t", 0⟩ = true
    ∧ (∀ now : Int, is_expired now ⟨1, "t", 0⟩ = true ↔ now > 86400)
    ∧ (verify_token 86340
        ⟨[⟨1, "a@x.com", false, false⟩], [⟨1, "t", 0⟩]⟩ "t").user = some 1
    ∧ verify_token 86401 ⟨[⟨1, "a@x.com", false, false⟩], [⟨1, "t", 0⟩]⟩ "t"
        = ⟨none, "Token has expired",
           ⟨[⟨1, "a@x.com", false, false⟩], [⟨1, "t", 0⟩]⟩⟩ := by
  have h := token_expiry_boundary
    ⟨[⟨1, "a@x.com", false, false⟩], [⟨1, "t", 0⟩]⟩ "t" 1 0
    ⟨1, "a@x.com", false, false⟩ rfl rfl
  simpa using h

/-- C8. When registration creates the user but the verification-mail
send fails, the created user row is deleted and an error reported, so
the user table is exactly what it was before the call; in general a
registration call either succeeds with the mail sent or reports an
error and leaves the user table unchanged.  `newId` is the fresh
primary key handed out by the insert. -/
theorem register_rollback (users : List UserRow) (email : String) (newId : Nat)
    (hfresh : ∀ u ∈ users, u.id ≠ newId) :
    (register_user users email newId false).users = users
    ∧ (register_user users email newId false).error.isSome = true
    ∧ (∀ mailOk, (register_user users email newId mailOk).error.isSome = true →
        (register_user users email newId mailOk).users = users) := by
  have hroll : ∀ created : UserRow, created.id = newId →
      (users ++ [created]).filter (fun u => !(u.id == newId)) = users := by
    intro created hc
    rw [List.filter_append]
    have h1 : users.filter (fun u => !(u.id == newId)) = users :=
      List.filter_eq_self.mpr (fun u hu => by simpa using hfresh u hu)
    have h2 : [created].filter (fun u => !(u.id == newId)) = [] := by
      simp [hc]
    rw [h1, h2, List.append_nil]
  refine ⟨?_, ?_, ?_⟩
  · unfold register_user
    by_cases hex : users.any (fun u => u.email == email)
    · simp [hex]
    · simp only [hex, Bool.false_eq_true, if_false]
      simpa using hroll ⟨newId, email, false, false⟩ rfl
  · unfold register_user
    by_cases hex : users.any (fun u => u.email == email)
    · simp [hex]
    · simp [hex]
  · intro mailOk herr
    unfold register_user at herr ⊢
    by_cases hex : users.any (fun u => u.email == email)
    · simp [hex]
    · simp only [hex, Bool.false_eq_true, if_false] at herr ⊢
      cases mailOk
      · simpa using hroll ⟨newId, email, false, false⟩ rfl
      · simp at herr

/-- Closed instance of `register_rollback`: one existing user, fresh
id 2, mail send fails, table restored. -/
theorem register_rollback_check :
    (register_user [⟨1, "a@x.com", true, true⟩] "b@x.com" 2 false).users
      = [⟨1, "a@x.com", true, true⟩]
    ∧ (register_user [⟨1, "a@x.com", true, true⟩] "b@x.com" 2 false).error.isSome
      = true :=
  ⟨(register_rollback [⟨1, "a@x.com", true, true⟩] "b@x.com" 2
      (by intro u hu; simp at hu; simp [hu])).1,
   (register_rollback [⟨1, "a@x.com", true, true⟩] "b@x.com" 2
      (by intro u hu; simp at hu; simp [hu])).2.1⟩

/-- C10 (code bug). The resend-verification endpoint answers an
existing unverified email and an unknown email both with status 200,
but with different message bodies — "Verification email sent" versus
"If email exists, verification link will be sent" — so the caller can
distinguish whether the email exists, contrary to the endpoint's own
"Don't reveal if email exists (security)" comment and to the claim. -/
theorem resend_reveals_existence :
    resend_post [⟨1, "a@x.com", false, false⟩] "a@x.com"
      = (200, "Verification email sent")
    ∧ resend_post [⟨1, "a@x.com", false, false⟩] "b@x.com"
      = (200, "If email exists, verification link will be sent")
    ∧ ("Verification email sent" : String)
        ≠ "If email exists, verification link will be sent" :=
  ⟨rfl, rfl, by decide⟩

/-- C3 (counterexample). The claim's expiry rule fails when
`expires_in` is present but zero: Python truthiness sends
`expires_in = 0` to the null branch, so the created row carries
expire_at = None where the claim demands now + 0 seconds. -/
theorem upsert_expiry_zero_claim_false :
    create_business_platform [] 100 (some 1) 2 ⟨some "tk", none, some 0⟩ "user" 7
      = .ok [⟨7, 1, 2, "tk", none, none, "user", true, false⟩]
    ∧ (none : Option Int) ≠ some (100 + 0) :=
  ⟨rfl, by decide⟩

/-- C3 (amended). expire_at is now + expires_in seconds when
expires_in is present and nonzero, and None when it is absent or
zero; and upserting twice for the same (business, platform) — here
starting from a state with no row for the pair — leaves exactly one
row for the pair, carrying the second response's access token,
refresh token, expiry and platform type. -/
theorem upsert_converges (rows : List BusinessPlatform) (now1 now2 : Int)
    (b p : Nat) (r1 r2 : TokenResponse) (pt1 pt2 t1 t2 : String)
    (fid fid2 : Nat)
    (h0 : rows.filter (fun r => r.business == b && r.platform == p) = [])
    (hfid : ∀ r ∈ rows, r.id ≠ fid)
    (h1 : r1.access_token = some t1) (h2 : r2.access_token = some t2) :
    (∀ (now e : Int), e ≠ 0 → computeExpireAt now (some e) = some (now + e))
    ∧ (∀ now : Int, computeExpireAt now none = none
        ∧ computeExpireAt now (some 0) = none)
    ∧ ∃ s1 s2,
        create_business_platform rows now1 (some b) p r1 pt1 fid = .ok s1
        ∧ create_business_platform s1 now2 (some b) p r2 pt2 fid2 = .ok s2
        ∧ s2.filter (fun r => r.business == b && r.platform == p)
            = [⟨fid, b, p, t2, r2.refresh_token,
                computeExpireAt now2 r2.expires_in, pt2, true, false⟩] := by
  refine ⟨fun now e he => by simp [computeExpireAt, he],
    fun now => ⟨rfl, by simp [computeExpireAt]⟩, ?_⟩
  set row1 : BusinessPlatform :=
    ⟨fid, b, p, t1, r1.refresh_token, computeExpireAt now1 r1.expires_in,
     pt1, true, false⟩ with hrow1
  set row2 : BusinessPlatform :=
    ⟨fid, b, p, t2, r2.refresh_token, computeExpireAt now2 r2.expires_in,
     pt2, true, false⟩ with hrow2
  have hs1 : create_business_platform rows now1 (some b) p r1 pt1 fid
      = .ok (rows ++ [row1]) := by
    unfold create_business_platform
    rw [h1]
    simp only [h0]
  have hfs1 : (rows ++ [row1]).filter
      (fun r => r.business == b && r.platform == p) = [row1] := by
    rw [List.filter_append, h0, List.nil_append]
    simp [hrow1]
  have hmap : (rows ++ [row1]).map (fun r =>
      if r.id == row1.id then
        { r with access_token := t2, refresh_token := r2.refresh_token,
                 expire_at := computeExpireAt now2 r2.expires_in,
                 platform_type := pt2 }
      else r) = rows ++ [row2] := by
    rw [List.map_append]
    congr 1
    · have hrows : rows.map (fun r =>
          if r.id == row1.id then
            { r with access_token := t2, refresh_token := r2.refresh_token,
                     expire_at := computeExpireAt now2 r2.expires_in,
                     platform_type := pt2 }
          else r) = rows.map id := by
        apply List.map_congr_left
        intro r hr
        have hne : r.id ≠ fid := hfid r hr
        simp [hrow1, hne]
      rw [hrows, List.map_id]
    · simp [hrow1, hrow2]
  have hs2 : create_business_platform (rows ++ [row1]) now2 (some b) p r2 pt2 fid2
      = .ok (rows ++ [row2]) := by
    unfold create_business_platform
    rw [h2]
    simp only [hfs1]
    exact congrArg Except.ok hmap
  have hfs2 : (rows ++ [row2]).filter
      (fun r => r.business == b && r.platform == p) = [row2] := by
    rw [List.filter_append, h0, List.nil_append]
    simp [hrow2]
  exact ⟨rows ++ [row1], rows ++ [row2], hs1, hs2, hfs2⟩

/-- Closed instance of `upsert_converges`: empty table, business 1 and
platform 2 upserted with two different token responses. -/
theorem upsert_converges_check :
    ∃ s1 s2,
      create_business_platform [] 50 (some 1) 2 ⟨some "ta", some "ra", some 60⟩
        "user" 7 = .ok s1
      ∧ create_business_platform s1 80 (some 1) 2 ⟨some "tb", none, none⟩
        "user" 9 = .ok s2
      ∧ s2.filter (fun r => r.business == 1 && r.platform == 2)
          = [⟨7, 1, 2, "tb", none, computeExpireAt 80 none, "user", true, false⟩] := by
  have h := upsert_converges [] 50 80 1 2 ⟨some "ta", some "ra", some 60⟩
    ⟨some "tb", none, none⟩ "user" "user" "ta" "tb" 7 9 rfl
    (by intro r hr; simp at hr) rfl rfl
  exact h.2.2

/-- C4. Deactivating a connection row `bp` maps the table pointwise
through `deactivateSpecPerRow`: `bp`'s row gets exactly
`is_active := false` and `reconnection := true`; when `bp`'s platform
has a parent, every active row of the same business under that parent
gets exactly the same two flags; every other row — in particular any
row beyond that one parent level, and every row when there is no
parent — is unchanged with all its fields intact. -/
theorem deactivate_cascade (ps : List PlatformRow) (rows : List BusinessPlatform)
    (bp : BusinessPlatform) :
    deactivate_platform ps rows (some bp)
      = rows.map (deactivateSpecPerRow bp (platformParent ps bp.platform))
    ∧ deactivateSpecPerRow bp (platformParent ps bp.platform) bp
        = { bp with is_active := false, reconnection := true }
    ∧ (∀ (pp : Nat) (r : BusinessPlatform),
        r.id ≠ bp.id → r.business = bp.business → r.platform = pp →
        r.is_active = true →
        deactivateSpecPerRow bp (some pp) r
          = { r with is_active := false, reconnection := true })
    ∧ (∀ (pp : Nat) (r : BusinessPlatform),
        r.id ≠ bp.id →
        ¬(r.business = bp.business ∧ r.platform = pp ∧ r.is_active = true) →
        deactivateSpecPerRow bp (some pp) r = r)
    ∧ (∀ r : BusinessPlatform, r.id ≠ bp.id →
        deactivateSpecPerRow bp none r = r) := by
  refine ⟨?_, ?_, ?_, ?_, ?_⟩
  · cases hpar : platformParent ps bp.platform with
    | none =>
        simp only [deactivate_platform, hpar]
        apply List.map_congr_left
        intro r _
        by_cases hcase : r.id = bp.id
        · simp [deactivateSpecPerRow, hcase]
        · simp [deactivateSpecPerRow, hcase]
    | some pp =>
        simp only [deactivate_platform, hpar]
        rw [List.map_map]
        apply List.map_congr_left
        intro r _
        simp only [Function.comp]
        by_cases hcase : r.id = bp.id
        · simp [deactivateSpecPerRow, hcase]
        · have hbid : (r.id == bp.id) = false := by simpa using hcase
          cases hb : (r.business == bp.business && r.platform == pp && r.is_active) with
          | true =>
              have hb2 := hb
              simp only [Bool.and_eq_true, beq_iff_eq] at hb2
              simp [deactivateSpecPerRow, hcase, hbid, hb2.1.1, hb2.1.2, hb2.2]
          | false =>
              have hprop : ¬(r.business = bp.business ∧ r.platform = pp
                  ∧ r.is_active = true) := by
                intro hcontra
                obtain ⟨ha1, ha2, ha3⟩ := hcontra
                simp [ha1, ha2, ha3] at hb
              simp [deactivateSpecPerRow, hcase, hbid, hb, hprop]
  · simp [deactivateSpecPerRow]
  · intro pp r hid hb hp ha
    simp [deactivateSpecPerRow, hid, hb, hp, ha]
  · intro pp r hid hc
    simp [deactivateSpecPerRow, hid, hc]
  · intro r hid
    simp [deactivateSpecPerRow, hid]

/-- Closed instance of `deactivate_cascade`: platform 2 has parent 1;
deactivating the platform-2 connection of business 5 also deactivates
the active parent connection (row 11), and only the two flags of each
touched row change. -/
theorem deactivate_cascade_check :
    deactivate_platform [⟨2, some 1⟩]
        [⟨10, 5, 2, "tk", none, none, "page", true, false⟩,
         ⟨11, 5, 1, "tk2", none, none, "user", true, false⟩]
        (some ⟨10, 5, 2, "tk", none, none, "page", true, false⟩)
      = [⟨10, 5, 2, "tk", none, none, "page", true, false⟩,
         ⟨11, 5, 1, "tk2", none, none, "user", true, false⟩].map
          (deactivateSpecPerRow ⟨10, 5, 2, "tk", none, none, "page", true, false⟩
            (platformParent [⟨2, some 1⟩] 2))
    ∧ deactivateSpecPerRow ⟨10, 5, 2, "tk", none, none, "page", true, false⟩
        (some 1) ⟨11, 5, 1, "tk2", none, none, "user", true, false⟩
      = ⟨11, 5, 1, "tk2", none, none, "user", false, true⟩ := by
  constructor
  · exact (deactivate_cascade [⟨2, some 1⟩]
      [⟨10, 5, 2, "tk", none, none, "page", true, false⟩,
       ⟨11, 5, 1, "tk2", none, none, "user", true, false⟩]
      ⟨10, 5, 2, "tk", none, none, "page", true, false⟩).1
  · have h := (deactivate_cascade [⟨2, some 1⟩]
      [⟨10, 5, 2, "tk", none, none, "page", true, false⟩,
       ⟨11, 5, 1, "tk2", none, none, "user", true, false⟩]
      ⟨10, 5, 2, "tk", none, none, "page", true, false⟩).2.2.1 1
      ⟨11, 5, 1, "tk2", none, none, "user", true, false⟩
      (by decide) rfl rfl rfl
    exact h.trans rfl

/-- C9 (counterexample). An upsert whose token response lacks
access_token fails with a raw KeyError — an unhandled Python
exception — not with a structured ValidationError as the claim
states. -/
theorem upsert_missing_access_claim_false :
    create_business_platform [] 0 (some 1) 2 ⟨none, none, none⟩ "user" 3
      = .error .keyError
    ∧ Err.keyError ≠ Err.validationError :=
  ⟨rfl, by decide⟩

/-- C9 (amended). Every connection-upsert call whose token response
lacks the access_token field fails by raising KeyError — before any
database access, so no connection row is created or updated (the
error result carries no table) — rather than with a structured
ValidationError. -/
theorem upsert_requires_access (rows : List BusinessPlatform) (now : Int)
    (business : Option Nat) (p : Nat) (rd : TokenResponse) (pt : String)
    (fid : Nat) (habs : rd.access_token = none) :
    create_business_platform rows now business p rd pt fid
      = .error .keyError := by
  unfold create_business_platform
  rw [habs]

/-- Closed instance of `upsert_requires_access` at a concrete call. -/
theorem upsert_requires_access_check :
    create_business_platform [⟨1, 1, 1, "t", none, none, "user", true, false⟩]
      5 (some 1) 1 ⟨none, some "r", some 10⟩ "user" 2 = .error .keyError :=
  upsert_requires_access [⟨1, 1, 1, "t", none, none, "user", true, false⟩]
    5 (some 1) 1 ⟨none, some "r", some 10⟩ "user" 2 rfl

end M2O
